import Mathlib

/-
  Verification development for the orpheus-streaming repository.

  The definitions below are shallow embeddings of the Python source:
  - src/controller/controller.py : ServiceHealthRepository (health registry)
  - src/server/health.py         : RedisHealth (worker-side health agent)
  - src/server/connection.py     : WebsocketConnection admission,
                                   LocalWebsocketSession timers,
                                   RemoteWebsocketSession candidate selection,
                                   ProxyConnections upstream pool
  Times are modelled in integral units (seconds for the controller,
  milliseconds for session timers); Python floats only ever enter
  comparisons, so the integral model preserves every branch.
-/

namespace Orpheus

/-! ### Generic association-list dictionaries (Python dict, insertion ordered)

Python 3.7+ dicts preserve insertion order and updating an existing key
keeps its position; `dictInsert` mirrors that, `dictGet` mirrors lookup. -/

def dictInsert (k : String) (v : α) : List (String × α) → List (String × α)
  | [] => [(k, v)]
  | (k', v') :: rest => if k' = k then (k, v) :: rest else (k', v') :: dictInsert k v rest

def dictGet (k : String) : List (String × α) → Option α
  | [] => none
  | (k', v) :: rest => if k' = k then some v else dictGet k rest

/-! ### Stable sort with a Bool comparator

Python's `sorted` is a stable sort by key; `sortedBy le` is a stable
insertion sort where `le a b = true` means a may precede b. -/

def insertLe (le : α → α → Bool) (x : α) : List α → List α
  | [] => [x]
  | y :: ys => if le x y then x :: y :: ys else y :: insertLe le x ys

def sortedBy (le : α → α → Bool) : List α → List α
  | [] => []
  | x :: xs => insertLe le x (sortedBy le xs)

/-! ### Controller: ServiceHealthRepository (src/controller/controller.py)

The repository keeps two dicts keyed by url: the latest ServerHealth
report and the wall-clock time of its last update. -/

structure ServerHealth where
  url : String
  sessions : Nat
  max_sessions : Nat
deriving DecidableEq

def slack (s : ServerHealth) : Int := (s.max_sessions : Int) - (s.sessions : Int)

structure GetServerHealthResponse where
  server_health : ServerHealth
  last_updated : Int
deriving DecidableEq

structure RepoState where
  servers : List (String × ServerHealth)
  server_updated_time : List (String × Int)
deriving DecidableEq

/-- ServiceHealthRepository.update_server_health: upsert the report and
stamp the update time (controller.py lines 169-176). -/
def update_server_health (st : RepoState) (info : ServerHealth) (now : Int) : RepoState :=
  { servers := dictInsert info.url info st.servers,
    server_updated_time := dictInsert info.url now st.server_updated_time }

def repoValues (st : RepoState) : List ServerHealth := st.servers.map Prod.snd

def lastUpdatedOf (st : RepoState) (url : String) : Int :=
  (dictGet url st.server_updated_time).getD 0

/-- Comparator used by get_available_servers / get_all_servers:
python sorted with key (max_sessions - sessions), i.e. slack ascending
(controller.py lines 181-183). -/
def availLe (a b : ServerHealth) : Bool := decide (slack a ≤ slack b)

/-- ServiceHealthRepository.get_available_servers (controller.py lines
178-191): sort all reports by slack ascending, keep those with
sessions < max_sessions, and attach last_updated (0.0 when missing). -/
def get_available_servers (st : RepoState) : List GetServerHealthResponse :=
  ((sortedBy availLe (repoValues st)).filter
      (fun s => decide (s.sessions < s.max_sessions))).map
    (fun s => { server_health := s, last_updated := lastUpdatedOf st s.url })

/-- ServiceHealthRepository.get_all_servers (controller.py lines 193-204). -/
def get_all_servers (st : RepoState) : List GetServerHealthResponse :=
  (sortedBy availLe (repoValues st)).map
    (fun s => { server_health := s, last_updated := lastUpdatedOf st s.url })

/-- Modelled from the spec (for the C1 comparison only, this is NOT code):
available() should return entries with sessions < max_sessions and
now - last_updated <= 30, sorted by slack descending, ties broken by the
most recently updated first. -/
def spec_available_servers (now : Int) (st : RepoState) : List GetServerHealthResponse :=
  sortedBy
    (fun a b =>
      decide (slack b.server_health < slack a.server_health) ||
        (decide (slack a.server_health = slack b.server_health) &&
          decide (b.last_updated ≤ a.last_updated)))
    ((repoValues st).filterMap fun s =>
      let lu := lastUpdatedOf st s.url
      if s.sessions < s.max_sessions ∧ now - lu ≤ 30 then
        some { server_health := s, last_updated := lu }
      else none)

/-- One pass of the body of _cleanup_expired_servers_loop at time `now`
(controller.py lines 156-167): collect the urls of reports whose update
time is more than 120 s old and delete them from both dicts.  The loop
sleeps `cleanup_sleep_seconds` between passes; the loop itself is only
ever scheduled by ServiceHealthRepository.start, which no code in the
repository calls. -/
def cleanup_expired_servers_step (now : Int) (st : RepoState) : RepoState :=
  let expired := (st.servers.map Prod.fst).filter
    (fun u => decide (now - lastUpdatedOf st u > 120))
  { servers := st.servers.filter (fun p => !(expired.contains p.1)),
    server_updated_time := st.server_updated_time.filter (fun p => !(expired.contains p.1)) }

def cleanup_sleep_seconds : Nat := 5

/-! ### Worker health agent: RedisHealth (src/server/health.py)

The redis sorted set "sessions_capacity" maps a server url to its
capacity score `sessions - max_sessions` (negative slack).  We model the
zset as an association list of (member, score); `zrangeList` reproduces
redis ZRANGE, which iterates members ordered by score, ties broken by
the lexicographic order of the member string. -/

/-- Byte-wise comparison of strings as redis compares members (memcmp
on the encoded bytes; for the url strings at hand this is the
code-point order of the characters). -/
def charListLe : List Char → List Char → Bool
  | [], _ => true
  | _ :: _, [] => false
  | c :: cs, d :: ds =>
    if c.toNat < d.toNat then true
    else if c.toNat = d.toNat then charListLe cs ds
    else false

def zsetLe (a b : String × Int) : Bool :=
  decide (a.2 < b.2) || (decide (a.2 = b.2) && charListLe a.1.data b.1.data)

/-- Redis ZRANGE key 0 (n-1): the first n members in score order. -/
def zrangeList (z : List (String × Int)) (n : Nat) : List String :=
  ((sortedBy zsetLe z).take n).map Prod.fst

/-- RedisHealth.query_available_servers (health.py lines 101-110):
ZRANGE sessions_capacity 0 4 (the five lowest capacity scores, i.e. most
slack first), then drop the worker's own url.  No capacity or staleness
filter is applied here. -/
def query_available_servers (own : String) (z : List (String × Int)) : List String :=
  (zrangeList z 5).filter (fun s => s ≠ own)

/-- RedisHealth.can_accept_session (health.py lines 138-141). -/
def can_accept_session (closed : Bool) (sessions max_sessions : Nat) : Bool :=
  !closed && decide (sessions < max_sessions)

/-- RedisHealth.add_session increments the local counter (health.py line 131). -/
def add_session (sessions : Nat) : Nat := sessions + 1

/-- RedisHealth.remove_session clamps at zero (health.py line 135). -/
def remove_session (sessions : Nat) : Nat := max 0 (sessions - 1)

/-! ### Local session counting (C4)

WebsocketConnection._handle_start_session admits a local session only
when can_accept_session returns true, and there is no asyncio suspension
point between that check and the increment inside add_session (the first
await inside add_session comes after `self._sessions += 1`), so under
the cooperative scheduler check-and-increment is one atomic step.
_run_session pops the handler and decrements exactly once when the run
task finishes, including on failure (connection.py lines 102-150). -/

structure WorkerState where
  sessions : Nat
  local_handlers : Nat
deriving DecidableEq

/-- One worker-level transition: admit_local is the atomic block of
_handle_start_session that creates a handler and runs add_session
(guarded by can_accept_session); terminate_local is the tail of
_run_session (pop + remove_session), which runs once per live handler. -/
inductive WorkerStep (max_sessions : Nat) : WorkerState → WorkerState → Prop
  | admit_local (s : WorkerState) :
      can_accept_session false s.sessions max_sessions = true →
      WorkerStep max_sessions s ⟨add_session s.sessions, s.local_handlers + 1⟩
  | terminate_local (s : WorkerState) :
      0 < s.local_handlers →
      WorkerStep max_sessions s ⟨remove_session s.sessions, s.local_handlers - 1⟩

def WorkerReachable (max_sessions : Nat) : WorkerState → Prop :=
  Relation.ReflTransGen (WorkerStep max_sessions) ⟨0, 0⟩

/-! ### Admission (WebsocketConnection._handle_start_session, connection.py 102-139)

A handler is identified by the kind of session plus a generation number
standing for the identity of the freshly constructed Python object. -/

inductive SessionHandler
  | localSession (generation : Nat)
  | remoteSession (generation : Nat) (candidates : List String)
deriving DecidableEq

inductive Frame
  | audioData (session : String)
  | finished (session : String)
  | errorFrame (session : String) (message : String)
deriving DecidableEq

structure AdmissionResult where
  sessions : List (String × SessionHandler)
  /-- Frames sent to the client by receive_loop while handling this
  StartSession (the NoCapacityError handler, connection.py 58-65). -/
  emitted : List Frame
  /-- Candidates handed to a spawned RemoteWebsocketSession run task;
  none means no remote session is spawned, hence no lease is ever
  attempted for this StartSession. -/
  spawned_remote : Option (List String)
  /-- Whether a local run task is started (after add_session). -/
  started_local : Bool
  /-- receive_loop catches NoCapacityError and continues its loop, so
  handling a StartSession never closes the connection. -/
  closes_connection : Bool
deriving DecidableEq

/-- WebsocketConnection._handle_start_session together with the
NoCapacityError handler in receive_loop.  There is no check whether
`sid` already has a handler: `self._sessions[original.session] = ws_sess`
overwrites unconditionally. -/
def handle_start_session (internal : Bool) (can_accept_local : Bool)
    (destination_candidates : List String) (generation : Nat)
    (sessions : List (String × SessionHandler)) (sid : String) : AdmissionResult :=
  if can_accept_local then
    { sessions := dictInsert sid (.localSession generation) sessions,
      emitted := [], spawned_remote := none, started_local := true,
      closes_connection := false }
  else if internal then
    { sessions := sessions,
      emitted := [.errorFrame sid "No capacity"], spawned_remote := none,
      started_local := false, closes_connection := false }
  else if destination_candidates.isEmpty then
    { sessions := sessions,
      emitted := [.errorFrame sid "No capacity"], spawned_remote := none,
      started_local := false, closes_connection := false }
  else
    { sessions := dictInsert sid (.remoteSession generation destination_candidates) sessions,
      emitted := [], spawned_remote := some destination_candidates,
      started_local := false, closes_connection := false }

/-! ### Remote candidate selection (RemoteWebsocketSession.run, connection.py 323-347)

The for loop over destination_candidates calls start_proxy on every
candidate; a success overwrites self._proxy_handle and destination and
the loop continues (there is no break), so the last successful lease
wins.  After the loop the original StartSession is sent once on that
handle; a failed send raises out of the (detached) run task. -/

def try_candidates (lease : String → Option Nat) :
    List String → Option (String × Nat) → Option (String × Nat)
  | [], acc => acc
  | c :: rest, acc =>
    match lease c with
    | some h => try_candidates lease rest (some (c, h))
    | none => try_candidates lease rest acc

inductive RemoteOutcome
  | bound (destination : String) (handle : Nat)
  | failed (message : String)
deriving DecidableEq

structure RemoteRunInit where
  outcome : RemoteOutcome
  /-- Frames delivered to the client during the init phase: none on any
  path, because the failure is a raise inside a task created by
  asyncio.create_task that nothing awaits or converts to an Error frame. -/
  emitted : List Frame
deriving DecidableEq

/-- The init phase of RemoteWebsocketSession.run: candidate loop, then
the single send of the buffered StartSession on the surviving handle. -/
def remote_run_init (lease : String → Option Nat) (sendOk : Nat → Bool)
    (cands : List String) : RemoteRunInit :=
  match try_candidates lease cands none with
  | none => { outcome := .failed "Proxy not available", emitted := [] }
  | some (dest, h) =>
    if sendOk h then { outcome := .bound dest h, emitted := [] }
    else { outcome := .failed "send failed", emitted := [] }

/-- Modelled from the spec (for the C2 comparison only, this is NOT code):
iterate the candidates in order, and the first candidate whose lease and
initial send both succeed wins; later candidates are not tried. -/
def spec_first_success (lease : String → Option Nat) (sendOk : Nat → Bool) :
    List String → Option (String × Nat)
  | [] => none
  | c :: rest =>
    match lease c with
    | some h => if sendOk h then some (c, h) else spec_first_success lease sendOk rest
    | none => spec_first_success lease sendOk rest

/-! ### Local session timers (LocalWebsocketSession, connection.py 179-299)

The state groups the flags of one LocalWebsocketSession with the frames
emitted for its session and the program counters of its run task and
inactivity_loop task.  Times are in milliseconds.  Each SessionEvent is
one atomic block between asyncio suspension points. -/

structure TimerConfig where
  session : String
  session_input_timeout : Int
  session_output_timeout : Int

structure LocalSessionState where
  closed : Bool
  eos : Bool
  last_input : Int
  last_output : Int
  ws_closed : Bool
  emitted : List Frame
  run_finished_sent : Bool
  run_done : Bool
  timer_alive : Bool
  now : Int
deriving DecidableEq

/-- The poll period of inactivity_loop: `await asyncio.sleep(0.25)`
(connection.py line 293), in milliseconds. -/
def inactivity_poll_ms : Nat := 250

/-- One wake of the inactivity_loop body (connection.py 261-293): exit
if closed; else on input timeout before Eos set closed, send
Error{"Inactivity timeout"} when the websocket is open, and break; else
the same for the output timeout; else sleep for another poll period. -/
def inactivity_step (cfg : TimerConfig) (st : LocalSessionState) : LocalSessionState :=
  if !st.timer_alive then st
  else if st.closed then { st with timer_alive := false }
  else if decide (st.now - st.last_input > cfg.session_input_timeout) && !st.eos then
    { st with closed := true,
              emitted := st.emitted ++
                (if st.ws_closed then [] else [.errorFrame cfg.session "Inactivity timeout"]),
              timer_alive := false }
  else if decide (st.now - st.last_output > cfg.session_output_timeout) then
    { st with closed := true,
              emitted := st.emitted ++
                (if st.ws_closed then [] else [.errorFrame cfg.session "Output timeout"]),
              timer_alive := false }
  else st

inductive SessionEvent
  /-- handle_message receiving Eos (connection.py 200-208): returns early
  if closed, else sets _eos and unblocks send_loop. -/
  | clientEos
  /-- The run task after its audio iterator ends (connection.py 251-257):
  refresh last_output, and send Finished unless _closed is set.  The
  send of the Finished frame is initiated inside this atomic block; the
  await on its completion ends the block. -/
  | runEmitFinished
  /-- The run task setting self._closed = True (connection.py line 259),
  reached only after awaiting send_task, strictly after runEmitFinished. -/
  | runSetClosed
  /-- One wake of the inactivity_loop task. -/
  | timerWake
  /-- Wall-clock time passing while every task is suspended. -/
  | advance (d : Nat)

def session_exec_event (cfg : TimerConfig) :
    LocalSessionState → SessionEvent → Option LocalSessionState
  | st, .clientEos => some (if st.closed then st else { st with eos := true })
  | st, .runEmitFinished =>
    if st.run_finished_sent then none
    else some { st with
      last_output := st.now,
      emitted := st.emitted ++ (if st.closed then [] else [.finished cfg.session]),
      run_finished_sent := true }
  | st, .runSetClosed =>
    if st.run_finished_sent && !st.run_done then
      some { st with closed := true, run_done := true }
    else none
  | st, .timerWake => if st.timer_alive then some (inactivity_step cfg st) else none
  | st, .advance d => some { st with now := st.now + d }

/-- Run a schedule of atomic blocks; none when the schedule violates the
program order of the two tasks. -/
def session_exec (cfg : TimerConfig) : List SessionEvent → LocalSessionState → Option LocalSessionState
  | [], st => some st
  | e :: es, st =>
    match session_exec_event cfg st e with
    | some st' => session_exec cfg es st'
    | none => none

/-! ### Upstream pool (ProxyConnections._get_or_create_connection, connection.py 421-448)

Per peer url: the recorded connection (id plus liveness), the per-url
asyncio.Lock, and the program counter of every concurrent caller.  The
atomic blocks match the suspension points of the code: the fast-path
check runs without awaiting; acquiring the lock awaits; the re-check
under the lock runs up to the dial, which awaits; recording the dialed
connection and releasing happen when the dial returns. -/

inductive CallerPC
  | start
  | waitLock
  | locked
  | dialing
  | done (result : Option Nat)
deriving DecidableEq

structure PoolState where
  conn : Option (Nat × Bool)
  lock_holder : Option Nat
  pcs : Nat → CallerPC
  next_conn_id : Nat
  dials : Nat

def connLive (s : PoolState) : Bool :=
  match s.conn with
  | some (_, true) => true
  | _ => false

def setPC (pcs : Nat → CallerPC) (i : Nat) (p : CallerPC) : Nat → CallerPC :=
  fun j => if j = i then p else pcs j

inductive PoolStep : PoolState → PoolState → Prop
  /-- Fast path (lines 422-425): the recorded connection is live. -/
  | fast_hit (s : PoolState) (i c : Nat) :
      s.pcs i = .start → s.conn = some (c, true) →
      PoolStep s { s with pcs := setPC s.pcs i (.done (some c)) }
  /-- Fast path misses (no recorded live connection); the caller waits
  on the per-url lock (lines 427-432). -/
  | fast_miss (s : PoolState) (i : Nat) :
      s.pcs i = .start → connLive s = false →
      PoolStep s { s with pcs := setPC s.pcs i .waitLock }
  | acquire (s : PoolState) (i : Nat) :
      s.pcs i = .waitLock → s.lock_holder = none →
      PoolStep s { s with pcs := setPC s.pcs i .locked, lock_holder := some i }
  /-- Re-check under the lock finds a live connection (lines 433-436). -/
  | locked_hit (s : PoolState) (i c : Nat) :
      s.pcs i = .locked → s.conn = some (c, true) →
      PoolStep s { s with pcs := setPC s.pcs i (.done (some c)), lock_holder := none }
  /-- Re-check misses: start a dial while still holding the lock
  (lines 441-442). -/
  | locked_dial (s : PoolState) (i : Nat) :
      s.pcs i = .locked → connLive s = false →
      PoolStep s { s with pcs := setPC s.pcs i .dialing, dials := s.dials + 1 }
  /-- The dial returns a websocket: record it and release (443-445). -/
  | dial_ok (s : PoolState) (i : Nat) :
      s.pcs i = .dialing →
      PoolStep s { s with pcs := setPC s.pcs i (.done (some s.next_conn_id)),
                          conn := some (s.next_conn_id, true),
                          next_conn_id := s.next_conn_id + 1,
                          lock_holder := none }
  /-- The dial raises: log and return None, releasing the lock (446-448). -/
  | dial_fail (s : PoolState) (i : Nat) :
      s.pcs i = .dialing →
      PoolStep s { s with pcs := setPC s.pcs i (.done none), lock_holder := none }
  /-- The shared transport dies (ws.closed becomes true). -/
  | conn_dies (s : PoolState) (c : Nat) :
      s.conn = some (c, true) →
      PoolStep s { s with conn := some (c, false) }
  /-- _run_connection removes the dead connection from the dict
  (lines 483-485). -/
  | conn_removed (s : PoolState) (c : Nat) :
      s.conn = some (c, false) →
      PoolStep s { s with conn := none }

def poolInit : PoolState :=
  { conn := none, lock_holder := none, pcs := fun _ => .start,
    next_conn_id := 0, dials := 0 }

def PoolReachable : PoolState → Prop := Relation.ReflTransGen PoolStep poolInit

/-- Lock-ownership invariant of the pool: a caller inside the critical
section (between acquiring the per-url lock and releasing it) is the
lock holder. -/
def PoolLockInv (s : PoolState) : Prop :=
  ∀ i, (s.pcs i = .locked ∨ s.pcs i = .dialing) → s.lock_holder = some i

/-- The last candidate in the list whose lease succeeds, paired with its
handle (reference form of what the RemoteWebsocketSession loop computes). -/
def lastSuccess (lease : String → Option Nat) : List String → Option (String × Nat)
  | [] => none
  | c :: rest =>
    match lastSuccess lease rest with
    | some r => some r
    | none => (lease c).map (fun h => (c, h))

/-! ### Concrete instances used by the counterexamples and witnesses -/

def shA : ServerHealth := { url := "a", sessions := 1, max_sessions := 2 }

def shB : ServerHealth := { url := "b", sessions := 0, max_sessions := 2 }

def shC : ServerHealth := { url := "c", sessions := 0, max_sessions := 3 }

/-- Registry with two fresh reports (slack 1 and 2, updated at t=100)
and one stale report (slack 3, updated at t=0, queried at t=100). -/
def c1state : RepoState :=
  { servers := [("a", shA), ("b", shB), ("c", shC)],
    server_updated_time := [("a", 100), ("b", 100), ("c", 0)] }

def c2lease : String → Option Nat := fun _ => some 0

def c2send : Nat → Bool := fun _ => true

def c3sessions : List (String × SessionHandler) := [("s1", .localSession 0)]

def c6lease : String → Option Nat := fun _ => none

def c6send : Nat → Bool := fun _ => true

def c5cfg : TimerConfig :=
  { session := "s1", session_input_timeout := 10000, session_output_timeout := 100 }

def c5init : LocalSessionState :=
  { closed := false, eos := false, last_input := 0, last_output := 0,
    ws_closed := false, emitted := [], run_finished_sent := false,
    run_done := false, timer_alive := true, now := 0 }

/-- The racing schedule: the client sends Eos; the model stream ends and
the run task emits Finished (its send is then in flight and the task is
suspended before it can set _closed); one inactivity poll period of
wall time passes; the timer wakes, sees _closed still false and the
output timeout expired, and emits a second terminal frame. -/
def c5sched : List SessionEvent :=
  [.clientEos, .runEmitFinished, .advance 250, .timerWake]

def c7cfg : TimerConfig :=
  { session := "s1", session_input_timeout := 100, session_output_timeout := 100000 }

def c7st : LocalSessionState :=
  { closed := false, eos := false, last_input := 0, last_output := 0,
    ws_closed := false, emitted := [], run_finished_sent := false,
    run_done := false, timer_alive := true, now := 200 }

def c8report : ServerHealth := { url := "w", sessions := 0, max_sessions := 1 }

/-- Repository state after a single report from worker "w" at t=0. -/
def c8state : RepoState := update_server_health { servers := [], server_updated_time := [] } c8report 0

def c9s1 : PoolState := { poolInit with pcs := setPC poolInit.pcs 0 .waitLock }

def c9s2 : PoolState := { c9s1 with pcs := setPC c9s1.pcs 0 .locked, lock_holder := some 0 }

def c9s3 : PoolState := { c9s2 with pcs := setPC c9s2.pcs 0 .dialing, dials := c9s2.dials + 1 }

def c9s4 : PoolState :=
  { c9s3 with pcs := setPC c9s3.pcs 0 (.done (some c9s3.next_conn_id)),
              conn := some (c9s3.next_conn_id, true),
              next_conn_id := c9s3.next_conn_id + 1,
              lock_holder := none }

def c9s5 : PoolState := { c9s4 with pcs := setPC c9s4.pcs 1 (.done (some 0)) }

def c10zset : List (String × Int) := [("a", -3), ("b", -1), ("own", -5)]

/-! ## Helper lemmas -/

theorem insertLe_perm (le : α → α → Bool) (x : α) (l : List α) :
    List.Perm (insertLe le x l) (x :: l) := by
  induction l with
  | nil => exact List.Perm.refl _
  | cons y ys ih =>
    unfold insertLe
    by_cases h : le x y = true
    · simp only [h, if_true]
      exact List.Perm.refl _
    · simp only [Bool.not_eq_true] at h
      simp only [h, Bool.false_eq_true, if_false]
      exact ((ih.cons y).trans (List.Perm.swap x y ys))

theorem sortedBy_perm (le : α → α → Bool) (l : List α) :
    List.Perm (sortedBy le l) l := by
  induction l with
  | nil => exact List.Perm.refl _
  | cons x xs ih =>
    exact (insertLe_perm le x (sortedBy le xs)).trans (ih.cons x)

theorem mem_insertLe (le : α → α → Bool) (x z : α) (l : List α) :
    z ∈ insertLe le x l ↔ z = x ∨ z ∈ l := by
  rw [(insertLe_perm le x l).mem_iff]
  simp

theorem pairwise_insertLe (le : α → α → Bool)
    (h_tot : ∀ a b, le a b = true ∨ le b a = true)
    (h_trans : ∀ a b c, le a b = true → le b c = true → le a c = true)
    (x : α) (l : List α) (hp : List.Pairwise (fun a b => le a b = true) l) :
    List.Pairwise (fun a b => le a b = true) (insertLe le x l) := by
  induction l with
  | nil => simp [insertLe]
  | cons y ys ih =>
    rw [List.pairwise_cons] at hp
    unfold insertLe
    by_cases h : le x y = true
    · simp only [h, if_true]
      rw [List.pairwise_cons]
      refine ⟨?_, List.pairwise_cons.mpr hp⟩
      intro z hz
      rcases List.mem_cons.mp hz with hz | hz
      · exact hz ▸ h
      · exact h_trans x y z h (hp.1 z hz)
    · simp only [Bool.not_eq_true] at h
      simp only [h, Bool.false_eq_true, if_false]
      rw [List.pairwise_cons]
      constructor
      · intro z hz
        rcases (mem_insertLe le x z ys).mp hz with hz | hz
        · rw [hz]
          rcases h_tot x y with htot | htot
          · rw [htot] at h; cases h
          · exact htot
        · exact hp.1 z hz
      · exact ih hp.2

theorem sortedBy_pairwise (le : α → α → Bool)
    (h_tot : ∀ a b, le a b = true ∨ le b a = true)
    (h_trans : ∀ a b c, le a b = true → le b c = true → le a c = true)
    (l : List α) :
    List.Pairwise (fun a b => le a b = true) (sortedBy le l) := by
  induction l with
  | nil => simp [sortedBy]
  | cons x xs ih => exact pairwise_insertLe le h_tot h_trans x (sortedBy le xs) ih

theorem dictGet_dictInsert_self (k : String) (v : α) (d : List (String × α)) :
    dictGet k (dictInsert k v d) = some v := by
  induction d with
  | nil => simp [dictInsert, dictGet]
  | cons p rest ih =>
    obtain ⟨k', v'⟩ := p
    unfold dictInsert
    by_cases h : k' = k
    · simp [h, dictGet]
    · simp only [h, if_false]
      unfold dictGet
      simp [h, ih]

theorem availLe_total (a b : ServerHealth) : availLe a b = true ∨ availLe b a = true := by
  unfold availLe
  rcases le_total (slack a) (slack b) with h | h
  · exact Or.inl (by simp [h])
  · exact Or.inr (by simp [h])

theorem availLe_trans (a b c : ServerHealth) :
    availLe a b = true → availLe b c = true → availLe a c = true := by
  unfold availLe
  simp only [decide_eq_true_eq]
  exact le_trans

theorem charListLe_total : ∀ as bs, charListLe as bs = true ∨ charListLe bs as = true := by
  intro as
  induction as with
  | nil => intro bs; exact Or.inl rfl
  | cons c cs ih =>
    intro bs
    cases bs with
    | nil => exact Or.inr rfl
    | cons d ds =>
      by_cases h1 : c.toNat < d.toNat
      · left; unfold charListLe; rw [if_pos h1]
      · by_cases h2 : c.toNat = d.toNat
        · have h1' : ¬ d.toNat < c.toNat := by omega
          unfold charListLe
          rw [if_neg h1, if_pos h2, if_neg h1', if_pos h2.symm]
          exact ih ds
        · have h3 : d.toNat < c.toNat := by omega
          right; unfold charListLe; rw [if_pos h3]

theorem charListLe_trans :
    ∀ as bs cs, charListLe as bs = true → charListLe bs cs = true →
      charListLe as cs = true := by
  intro as
  induction as with
  | nil => intro bs cs h1 h2; rfl
  | cons a as' ih =>
    intro bs cs h1 h2
    cases bs with
    | nil => simp [charListLe] at h1
    | cons b bs' =>
      cases cs with
      | nil => simp [charListLe] at h2
      | cons c cs' =>
        unfold charListLe at h1 h2 ⊢
        by_cases hab : a.toNat < b.toNat
        · by_cases hbc : b.toNat < c.toNat
          · rw [if_pos (by omega : a.toNat < c.toNat)]
          · by_cases hbc2 : b.toNat = c.toNat
            · rw [if_pos (by omega : a.toNat < c.toNat)]
            · rw [if_neg hbc, if_neg hbc2] at h2; cases h2
        · by_cases hab2 : a.toNat = b.toNat
          · rw [if_neg hab, if_pos hab2] at h1
            by_cases hbc : b.toNat < c.toNat
            · rw [if_pos (by omega : a.toNat < c.toNat)]
            · by_cases hbc2 : b.toNat = c.toNat
              · rw [if_neg hbc, if_pos hbc2] at h2
                rw [if_neg (by omega : ¬ a.toNat < c.toNat),
                    if_pos (by omega : a.toNat = c.toNat)]
                exact ih bs' cs' h1 h2
              · rw [if_neg hbc, if_neg hbc2] at h2; cases h2
          · rw [if_neg hab, if_neg hab2] at h1; cases h1

theorem zsetLe_total (a b : String × Int) : zsetLe a b = true ∨ zsetLe b a = true := by
  unfold zsetLe
  rcases Int.lt_trichotomy a.2 b.2 with h | h | h
  · left; simp [h]
  · rcases charListLe_total a.1.data b.1.data with hc | hc
    · left; simp [h, hc]
    · right; simp [h, hc]
  · right; simp [h]

theorem zsetLe_trans (a b c : String × Int) :
    zsetLe a b = true → zsetLe b c = true → zsetLe a c = true := by
  unfold zsetLe
  simp only [Bool.or_eq_true, Bool.and_eq_true, decide_eq_true_eq]
  intro h1 h2
  rcases h1 with h1 | ⟨h1e, h1c⟩
  · rcases h2 with h2 | ⟨h2e, h2c⟩
    · exact Or.inl (by omega)
    · exact Or.inl (by omega)
  · rcases h2 with h2 | ⟨h2e, h2c⟩
    · exact Or.inl (by omega)
    · exact Or.inr ⟨by omega, charListLe_trans _ _ _ h1c h2c⟩

theorem try_candidates_eq_lastSuccess (lease : String → Option Nat) :
    ∀ (cs : List String) (acc : Option (String × Nat)),
      try_candidates lease cs acc =
        match lastSuccess lease cs with
        | some r => some r
        | none => acc := by
  intro cs
  induction cs with
  | nil => intro acc; rfl
  | cons c rest ih =>
    intro acc
    unfold try_candidates lastSuccess
    cases hl : lease c with
    | some h =>
      cases hr : lastSuccess lease rest with
      | some r => simp [ih, hr]
      | none => simp [ih, hr]
    | none =>
      cases hr : lastSuccess lease rest with
      | some r => simp [ih, hr]
      | none => simp [ih, hr]

theorem lastSuccess_eq_none (lease : String → Option Nat) :
    ∀ cs : List String, (∀ c ∈ cs, lease c = none) → lastSuccess lease cs = none := by
  intro cs
  induction cs with
  | nil => intro _; rfl
  | cons c rest ih =>
    intro h
    unfold lastSuccess
    rw [ih (fun c' hc' => h c' (List.mem_cons_of_mem c hc')),
        h c (List.mem_cons_self c rest)]
    rfl

/-! ## Claim theorems -/

/-- C2 counterexample: with two candidates whose leases both succeed
(and sends succeed), the claim says the session is bound to the first
candidate "u1" and that "u2" is not tried; the code binds "u2", the
last candidate whose lease succeeds.  spec_first_success is the claim's
selection rule and picks ("u1", 0) here. -/
theorem C2_counterexample :
    spec_first_success c2lease c2send ["u1", "u2"] = some ("u1", 0) ∧
    (remote_run_init c2lease c2send ["u1", "u2"]).outcome = RemoteOutcome.bound "u2" 0 ∧
    (remote_run_init c2lease c2send ["u1", "u2"]).outcome ≠ RemoteOutcome.bound "u1" 0 := by
  refine ⟨rfl, rfl, ?_⟩
  decide

/-- C2 amended: the candidate loop of RemoteWebsocketSession.run tries
every candidate in order regardless of earlier successes (there is no
break), the session is bound to the last candidate whose lease
succeeds, and the original StartSession frame is sent once, after the
loop, on that lease; a failed send is not retried on other candidates
but fails the run task. -/
theorem C2_last_lease_wins (lease : String → Option Nat) (sendOk : Nat → Bool)
    (cands : List String) :
    remote_run_init lease sendOk cands =
      match lastSuccess lease cands with
      | none => { outcome := .failed "Proxy not available", emitted := [] }
      | some (dest, h) =>
        if sendOk h then { outcome := .bound dest h, emitted := [] }
        else { outcome := .failed "send failed", emitted := [] } := by
  unfold remote_run_init
  rw [try_candidates_eq_lastSuccess]
  cases hr : lastSuccess lease cands with
  | none => rfl
  | some r => obtain ⟨dest, h⟩ := r; rfl

/-- C3 counterexample: connection state with an existing handler for
session id "s1" (generation 0); a second StartSession for "s1" admitted
locally (generation 1) is not rejected: the session map changes and the
entry for "s1" now holds the new handler in place of the old one. -/
theorem C3_counterexample :
    (handle_start_session false true [] 1 c3sessions "s1").sessions ≠ c3sessions ∧
    dictGet "s1" (handle_start_session false true [] 1 c3sessions "s1").sessions =
      some (SessionHandler.localSession 1) := by
  constructor
  · decide
  · decide

/-- C3 amended: WebsocketConnection._handle_start_session never checks
whether the session id already has a handler; whenever admission
accepts (locally or remotely) the freshly created handler is stored
under the id, replacing any existing handler; only when admission
refuses (internal connection without capacity, or an empty candidate
list) is the map left unchanged. -/
theorem C3_duplicate_overwrites (internal can_accept_local : Bool)
    (cands : List String) (generation : Nat)
    (sessions : List (String × SessionHandler)) (sid : String) :
    dictGet sid (handle_start_session internal can_accept_local cands generation sessions sid).sessions =
      (if can_accept_local then some (SessionHandler.localSession generation)
       else if internal then dictGet sid sessions
       else if cands.isEmpty then dictGet sid sessions
       else some (SessionHandler.remoteSession generation cands)) := by
  unfold handle_start_session
  by_cases h1 : can_accept_local
  · simp [h1, dictGet_dictInsert_self]
  · by_cases h2 : internal
    · simp [h1, h2]
    · by_cases h3 : cands.isEmpty
      · simp [h1, h2, h3]
      · simp [h1, h2, h3, dictGet_dictInsert_self]

/-- C6 counterexample: with no local capacity, a non-internal
connection and one candidate whose lease fails, the claim says the
client receives Error "No capacity"; in the code the admission step
emits nothing (the remote handler is spawned), and the detached remote
run task raises "Proxy not available" without emitting any frame, so no
Error reaches the client. -/
theorem C6_counterexample :
    (handle_start_session false false ["u1"] 0 [] "s3").emitted = [] ∧
    (remote_run_init c6lease c6send ["u1"]).emitted = [] ∧
    (remote_run_init c6lease c6send ["u1"]).outcome =
      RemoteOutcome.failed "Proxy not available" := by
  exact ⟨rfl, rfl, rfl⟩

/-- C6 amended: on StartSession without local capacity, if the
connection is internal or the candidate list is empty, the client
receives Error "No capacity" for that session, no remote session is
spawned (hence no lease is attempted) and the connection keeps serving
(the session map is untouched and the connection is not closed); but
when every forwarding candidate's lease fails, the spawned run task
fails with "Proxy not available" and no frame at all is emitted to the
client. -/
theorem C6_no_capacity_paths (cands : List String)
    (sessions : List (String × SessionHandler)) (generation : Nat) (sid : String) :
    (handle_start_session true false cands generation sessions sid =
      { sessions := sessions, emitted := [.errorFrame sid "No capacity"],
        spawned_remote := none, started_local := false, closes_connection := false }) ∧
    (handle_start_session false false [] generation sessions sid =
      { sessions := sessions, emitted := [.errorFrame sid "No capacity"],
        spawned_remote := none, started_local := false, closes_connection := false }) ∧
    (∀ (lease : String → Option Nat) (sendOk : Nat → Bool),
      (∀ c ∈ cands, lease c = none) →
      remote_run_init lease sendOk cands =
        { outcome := .failed "Proxy not available", emitted := [] }) := by
  refine ⟨rfl, rfl, ?_⟩
  intro lease sendOk hfail
  unfold remote_run_init
  rw [try_candidates_eq_lastSuccess, lastSuccess_eq_none lease cands hfail]

/-- C6 witness: the amended theorem applied to the concrete scenario of
the counterexample (one failing candidate, session "s3"). -/
theorem C6_no_capacity_paths_witness :
    remote_run_init c6lease c6send ["u1"] =
      { outcome := .failed "Proxy not available", emitted := [] } :=
  (C6_no_capacity_paths ["u1"] [] 0 "s3").2.2 c6lease c6send
    (fun _ _ => rfl)

/-- C1 counterexample: at time now=100, the registry c1state holds
fresh reports with slack 1 and 2 and a stale report (last updated at 0)
with slack 3.  The claim (refiltering by age ≤ 30 s and sorting by
slack descending with recency tie-break, spec_available_servers) gives
a different list than the code (get_available_servers), which keeps the
stale entry and sorts by slack ascending. -/
theorem C1_counterexample :
    get_available_servers c1state ≠ spec_available_servers 100 c1state := by
  decide

/-- C1 amended: get_available_servers returns exactly the reports with
sessions < max_sessions — reports are not filtered by age — sorted by
slack in ascending order (least slack first), each tagged with its
last_updated time (0 when unknown). -/
theorem C1_available_characterization (st : RepoState) :
    List.Pairwise
      (fun a b => slack a.server_health ≤ slack b.server_health)
      (get_available_servers st) ∧
    List.Perm ((get_available_servers st).map (fun r => r.server_health))
      ((repoValues st).filter (fun s => decide (s.sessions < s.max_sessions))) ∧
    ∀ r ∈ get_available_servers st,
      r.last_updated = lastUpdatedOf st r.server_health.url := by
  unfold get_available_servers
  refine ⟨?_, ?_, ?_⟩
  · rw [List.pairwise_map]
    have hsorted := sortedBy_pairwise availLe availLe_total availLe_trans (repoValues st)
    have hfilt : List.Pairwise (fun a b => availLe a b = true)
        ((sortedBy availLe (repoValues st)).filter
          (fun s => decide (s.sessions < s.max_sessions))) :=
      List.Pairwise.sublist (List.filter_sublist _) hsorted
    exact hfilt.imp (fun h => by simpa [availLe] using h)
  · rw [List.map_map]
    have hcomp : ((fun r : GetServerHealthResponse => r.server_health) ∘
        (fun s => ({ server_health := s, last_updated := lastUpdatedOf st s.url } : GetServerHealthResponse))) = fun s => s := rfl
    rw [hcomp, List.map_id']
    exact (sortedBy_perm availLe (repoValues st)).filter _
  · intro r hr
    obtain ⟨s, _, rfl⟩ := List.mem_map.mp hr
    rfl

/-- C1 witness: the characterization applied at c1state and its entry
for server "a". -/
theorem C1_available_characterization_witness :
    (100 : Int) = lastUpdatedOf c1state shA.url :=
  (C1_available_characterization c1state).2.2
    { server_health := shA, last_updated := 100 } (by decide)

theorem worker_step_preserves (max_sessions : Nat) {t u : WorkerState}
    (hstep : WorkerStep max_sessions t u)
    (ih : t.local_handlers = t.sessions ∧ t.local_handlers ≤ max_sessions) :
    u.local_handlers = u.sessions ∧ u.local_handlers ≤ max_sessions := by
  obtain ⟨ih1, ih2⟩ := ih
  cases hstep with
  | admit_local hacc =>
    have hlt : t.sessions < max_sessions := by
      unfold can_accept_session at hacc
      simpa using hacc
    refine ⟨?_, ?_⟩
    · show t.local_handlers + 1 = add_session t.sessions
      unfold add_session
      omega
    · show t.local_handlers + 1 ≤ max_sessions
      omega
  | terminate_local hpos =>
    refine ⟨?_, ?_⟩
    · show t.local_handlers - 1 = remove_session t.sessions
      unfold remove_session
      rw [Nat.zero_max]
      omega
    · show t.local_handlers - 1 ≤ max_sessions
      omega

/-- C4: on a worker starting from zero sessions, under any interleaving
of admissions (guarded by can_accept_session, incrementing via
add_session before the run task starts) and terminations (decrementing
exactly once via remove_session), the number of live local session
handlers equals the counter and never exceeds max_sessions. -/
theorem C4_capacity_bound (max_sessions : Nat) (s : WorkerState)
    (h : WorkerReachable max_sessions s) :
    s.local_handlers = s.sessions ∧ s.local_handlers ≤ max_sessions := by
  unfold WorkerReachable at h
  induction h with
  | refl => exact ⟨rfl, Nat.zero_le _⟩
  | tail _ hstep ih => exact worker_step_preserves max_sessions hstep ih

/-- C4 witness: one admission on a worker with max_sessions = 1. -/
theorem C4_capacity_bound_witness :
    (⟨1, 1⟩ : WorkerState).local_handlers = (⟨1, 1⟩ : WorkerState).sessions ∧
    (⟨1, 1⟩ : WorkerState).local_handlers ≤ 1 :=
  C4_capacity_bound 1 ⟨1, 1⟩
    (Relation.ReflTransGen.single (WorkerStep.admit_local ⟨0, 0⟩ (by decide)))

/-- C5: a valid interleaving of the run task and the inactivity timer
(schedule c5sched from state c5init) emits the terminal Finished frame
and afterwards a second terminal frame Error "Output timeout" for the
same session: run() only sets _closed after its Finished send and the
following await of send_task, so a timer wake in that window still sees
_closed == false and emits.  This refutes the exactly-one-terminal
claim; the spec (§8 Exactly-one-terminal, §5 ordering rule 4) is the
clear intent, so the race is a code bug. -/
theorem C5_second_terminal_after_finished :
    (session_exec c5cfg c5sched c5init).map (fun st => st.emitted) =
      some [Frame.finished "s1", Frame.errorFrame "s1" "Output timeout"] := by
  decide

/-- C7: one wake of the inactivity loop in a state where the input
timeout has expired before Eos (websocket still open, session not
closed) emits Error "Inactivity timeout" and closes the session; the
poll period is 250 ms; and once the session is closed a wake emits
nothing and the timer stops. -/
theorem C7_input_timer (cfg : TimerConfig) (st : LocalSessionState)
    (h1 : st.timer_alive = true) (h2 : st.closed = false) (h3 : st.eos = false)
    (h4 : st.ws_closed = false)
    (h5 : st.now - st.last_input > cfg.session_input_timeout) :
    (inactivity_step cfg st).emitted =
      st.emitted ++ [Frame.errorFrame cfg.session "Inactivity timeout"] ∧
    (inactivity_step cfg st).closed = true ∧
    (inactivity_step cfg st).timer_alive = false ∧
    inactivity_poll_ms ≤ 250 ∧
    (∀ st2 : LocalSessionState, st2.closed = true →
      (inactivity_step cfg st2).emitted = st2.emitted ∧
      (inactivity_step cfg st2).timer_alive = false) := by
  refine ⟨?_, ?_, ?_, by decide, ?_⟩
  · simp [inactivity_step, h1, h2, h3, h4, h5]
  · simp [inactivity_step, h1, h2, h3, h4, h5]
  · simp [inactivity_step, h1, h2, h3, h4, h5]
  · intro st2 hc2
    cases ha : st2.timer_alive <;> simp [inactivity_step, ha, hc2]

/-- C7 witness: the timer theorem at a concrete state 200 ms after the
last input with a 100 ms input timeout. -/
theorem C7_input_timer_witness :
    (inactivity_step c7cfg c7st).emitted =
      c7st.emitted ++ [Frame.errorFrame "s1" "Inactivity timeout"] ∧
    (inactivity_step c7cfg c7st).closed = true ∧
    (inactivity_step c7cfg c7st).timer_alive = false := by
  have h := C7_input_timer c7cfg c7st rfl rfl rfl rfl (by decide)
  exact ⟨h.1, h.2.1, h.2.2.1⟩

/-- C8: the claim says the controller's repository runs the expiry
sweep every 5 s.  The sweep body (cleanup_expired_servers_step) does
remove every entry older than 120 s — second conjunct — but the task
running it is created only by ServiceHealthRepository.start, which the
Controller never calls (Controller.__init__ just constructs the
repository and Controller.start only starts the web site), so the entry
from a worker that reported once at t=0 is still served by all_servers
at t=200 — first conjunct.  The spec (and its scenario 6) is the clear
intent; the missing start call is a code bug. -/
theorem C8_sweep_defined_but_never_started :
    ({ server_health := c8report, last_updated := 0 } : GetServerHealthResponse) ∈
      get_all_servers c8state ∧
    get_all_servers (cleanup_expired_servers_step 200 c8state) = [] := by
  decide

theorem pool_inv_step {s s' : PoolState} (hstep : PoolStep s s')
    (hinv : PoolLockInv s) : PoolLockInv s' := by
  cases hstep with
  | fast_hit i c hpc hconn =>
    intro j hj
    show s.lock_holder = some j
    unfold setPC at hj
    by_cases hji : j = i
    · simp [hji] at hj
    · simp only [hji, if_false] at hj
      exact hinv j hj
  | fast_miss i hpc hmiss =>
    intro j hj
    show s.lock_holder = some j
    unfold setPC at hj
    by_cases hji : j = i
    · simp [hji] at hj
    · simp only [hji, if_false] at hj
      exact hinv j hj
  | acquire i hpc hlock =>
    intro j hj
    show some i = some j
    unfold setPC at hj
    by_cases hji : j = i
    · rw [hji]
    · simp only [hji, if_false] at hj
      have hcon := hinv j hj
      rw [hlock] at hcon
      cases hcon
  | locked_hit i c hpc hconn =>
    intro j hj
    unfold setPC at hj
    by_cases hji : j = i
    · simp [hji] at hj
    · simp only [hji, if_false] at hj
      have h1 := hinv j hj
      have h2 := hinv i (Or.inl hpc)
      rw [h2] at h1
      exact absurd (Option.some.inj h1).symm hji
  | locked_dial i hpc hmiss =>
    intro j hj
    show s.lock_holder = some j
    unfold setPC at hj
    by_cases hji : j = i
    · rw [hji]
      exact hinv i (Or.inl hpc)
    · simp only [hji, if_false] at hj
      exact hinv j hj
  | dial_ok i hpc =>
    intro j hj
    unfold setPC at hj
    by_cases hji : j = i
    · simp [hji] at hj
    · simp only [hji, if_false] at hj
      have h1 := hinv j hj
      have h2 := hinv i (Or.inr hpc)
      rw [h2] at h1
      exact absurd (Option.some.inj h1).symm hji
  | dial_fail i hpc =>
    intro j hj
    unfold setPC at hj
    by_cases hji : j = i
    · simp [hji] at hj
    · simp only [hji, if_false] at hj
      have h1 := hinv j hj
      have h2 := hinv i (Or.inr hpc)
      rw [h2] at h1
      exact absurd (Option.some.inj h1).symm hji
  | conn_dies c hconn =>
    intro j hj
    exact hinv j hj
  | conn_removed c hconn =>
    intro j hj
    exact hinv j hj

theorem pool_reachable_inv {s : PoolState} (h : PoolReachable s) : PoolLockInv s := by
  unfold PoolReachable at h
  induction h with
  | refl =>
    intro i hi
    rcases hi with hi | hi <;> simp [poolInit] at hi
  | tail _ hstep ih => exact pool_inv_step hstep ih

/-- C9: in every reachable pool state for a given peer url, at most one
caller is dialing at a time (the per-url lock is held by whoever is
inside the locked re-check or the dial), and a caller that starts
_get_or_create_connection while a live connection is recorded completes
with that connection without any new dial being counted.  The state
records at most one connection per url by construction (conn is a
single optional slot, matching the one dict entry per url). -/
theorem C9_single_dial_and_reuse (s : PoolState) (h : PoolReachable s) :
    (∀ i j, s.pcs i = .dialing → s.pcs j = .dialing → i = j) ∧
    (∀ (s' : PoolState) (i c : Nat), PoolStep s s' → s.pcs i = .start →
      s.conn = some (c, true) → s'.pcs i ≠ .start →
      s'.pcs i = .done (some c) ∧ s'.dials = s.dials) := by
  have hinv := pool_reachable_inv h
  constructor
  · intro i j hi hj
    have h1 := hinv i (Or.inr hi)
    have h2 := hinv j (Or.inr hj)
    rw [h1] at h2
    exact Option.some.inj h2
  · intro s' i c hstep hpc hconn hne
    cases hstep with
    | fast_hit k c' hk hconn' =>
      by_cases hik : i = k
      · subst hik
        rw [hconn] at hconn'
        have hcc : c = c' := congrArg Prod.fst (Option.some.inj hconn')
        constructor
        · show setPC s.pcs i (.done (some c')) i = .done (some c)
          unfold setPC
          simp [hcc]
        · rfl
      · exfalso
        apply hne
        show setPC s.pcs k (.done (some c')) i = .start
        unfold setPC
        rw [if_neg hik]
        exact hpc
    | fast_miss k hk hmiss =>
      by_cases hik : i = k
      · exfalso
        unfold connLive at hmiss
        rw [hconn] at hmiss
        cases hmiss
      · exfalso
        apply hne
        show setPC s.pcs k .waitLock i = .start
        unfold setPC
        rw [if_neg hik]
        exact hpc
    | acquire k hk hlock =>
      by_cases hik : i = k
      · rw [← hik, hpc] at hk
        simp at hk
      · exfalso
        apply hne
        show setPC s.pcs k .locked i = .start
        unfold setPC
        rw [if_neg hik]
        exact hpc
    | locked_hit k c' hk hconn' =>
      by_cases hik : i = k
      · rw [← hik, hpc] at hk
        simp at hk
      · exfalso
        apply hne
        show setPC s.pcs k (.done (some c')) i = .start
        unfold setPC
        rw [if_neg hik]
        exact hpc
    | locked_dial k hk hmiss =>
      by_cases hik : i = k
      · rw [← hik, hpc] at hk
        simp at hk
      · exfalso
        apply hne
        show setPC s.pcs k .dialing i = .start
        unfold setPC
        rw [if_neg hik]
        exact hpc
    | dial_ok k hk =>
      by_cases hik : i = k
      · rw [← hik, hpc] at hk
        simp at hk
      · exfalso
        apply hne
        show setPC s.pcs k (.done (some s.next_conn_id)) i = .start
        unfold setPC
        rw [if_neg hik]
        exact hpc
    | dial_fail k hk =>
      by_cases hik : i = k
      · rw [← hik, hpc] at hk
        simp at hk
      · exfalso
        apply hne
        show setPC s.pcs k (.done none) i = .start
        unfold setPC
        rw [if_neg hik]
        exact hpc
    | conn_dies c' hc' =>
      exfalso
      exact hne hpc
    | conn_removed c' hc' =>
      exfalso
      exact hne hpc

/-- C9 witness: caller 0 dials and records connection 0; caller 1 then
arrives, reuses it through the fast path, and the dial count stays 1. -/
theorem C9_single_dial_and_reuse_witness :
    c9s5.pcs 1 = CallerPC.done (some 0) ∧ c9s5.dials = c9s4.dials := by
  have r1 : PoolStep poolInit c9s1 := PoolStep.fast_miss poolInit 0 rfl rfl
  have r2 : PoolStep c9s1 c9s2 := PoolStep.acquire c9s1 0 rfl rfl
  have r3 : PoolStep c9s2 c9s3 := PoolStep.locked_dial c9s2 0 rfl rfl
  have r4 : PoolStep c9s3 c9s4 := PoolStep.dial_ok c9s3 0 rfl
  have hr4 : PoolReachable c9s4 :=
    ((((Relation.ReflTransGen.refl).tail r1).tail r2).tail r3).tail r4
  have step5 : PoolStep c9s4 c9s5 := PoolStep.fast_hit c9s4 1 0 rfl rfl
  exact (C9_single_dial_and_reuse c9s4 hr4).2 c9s5 1 0 step5 rfl rfl (by decide)

/-- C10: query_available_servers returns at most five urls; every
returned url is a registered member different from the worker's own
url; every url in the five-lowest-score window other than the worker's
own is returned (so zero or negative slack does not exclude a peer);
and the window really holds the five lowest capacity scores: every
member of the sorted prefix compares below every member outside it. -/
theorem C10_query_characterization (z : List (String × Int)) (own : String) :
    (query_available_servers own z).length ≤ 5 ∧
    (∀ u ∈ query_available_servers own z, u ≠ own ∧ u ∈ z.map Prod.fst) ∧
    (∀ u ∈ zrangeList z 5, u ≠ own → u ∈ query_available_servers own z) ∧
    (∀ p ∈ (sortedBy zsetLe z).take 5, ∀ q ∈ (sortedBy zsetLe z).drop 5,
      zsetLe p q = true) := by
  refine ⟨?_, ?_, ?_, ?_⟩
  · unfold query_available_servers zrangeList
    have h2 : (((sortedBy zsetLe z).take 5).map Prod.fst).length ≤ 5 := by
      rw [List.length_map]
      exact List.length_take_le _ _
    exact le_trans (List.length_filter_le _ _) h2
  · intro u hu
    unfold query_available_servers at hu
    obtain ⟨hmem, hne⟩ := List.mem_filter.mp hu
    refine ⟨by simpa using hne, ?_⟩
    unfold zrangeList at hmem
    obtain ⟨p, hp, rfl⟩ := List.mem_map.mp hmem
    have hp2 : p ∈ sortedBy zsetLe z := List.mem_of_mem_take hp
    have hp3 : p ∈ z := (sortedBy_perm zsetLe z).mem_iff.mp hp2
    exact List.mem_map_of_mem Prod.fst hp3
  · intro u hu hne
    unfold query_available_servers
    exact List.mem_filter.mpr ⟨hu, by simpa using hne⟩
  · intro p hp q hq
    have hpair := sortedBy_pairwise zsetLe zsetLe_total zsetLe_trans z
    rw [← List.take_append_drop 5 (sortedBy zsetLe z)] at hpair
    exact (List.pairwise_append.mp hpair).2.2 p hp q hq

/-- C10 witness: in a registry of three members including the worker
itself, the characterization applied to the returned peer "a". -/
theorem C10_query_characterization_witness :
    ("a" : String) ≠ "own" ∧ "a" ∈ c10zset.map Prod.fst :=
  (C10_query_characterization c10zset "own").2.1 "a" (by decide)

end Orpheus
